import Mathlib

/-!
Shallow embedding of `slush.c` (Simple Linux UART Shell).

Bytes are modelled as `Nat` values below 256; C character buffers are
lists of bytes.  The C string functions (`strlen`, the `%s` conversion)
stop at the first zero byte, which is modelled with `List.takeWhile`.
Machine `uint64_t` arithmetic is modelled on `Nat` with an explicit
`% 2 ^ 64`.  Fallible system calls are modelled with `Except`/`Option`.
-/

namespace Slush

/-- slush.c line 36: `#define DEVICE "/dev/ttyS0"`. -/
def DEVICE : String := "/dev/ttyS0"

/-- slush.c line 37: `#define BPS 115200`. -/
def BPS : Int := 115200

/-- slush.c line 38: `#define BUFLEN 1024`. -/
def BUFLEN : Nat := 1024

/-- Byte value of the newline character. -/
def NL : Nat := 10

/-- Byte value of the carriage-return character. -/
def CR : Nat := 13

/-- `2 ^ 64`, the modulus of C `uint64_t` arithmetic. -/
def U64 : Nat := 2 ^ 64

/-- C `isprint` in the default locale: printable bytes are 0x20..0x7e. -/
def isprint (c : Nat) : Bool := 32 ≤ c && c ≤ 126

/-- C `strlen` on a byte buffer: length of the prefix before the first
zero byte.  (In C, a buffer containing no zero byte makes `strlen` read
past its end; in this model `strlen` of such a buffer is its length.) -/
def strlen (buf : List Nat) : Nat := (buf.takeWhile (fun b => b != 0)).length

/-- The C string denoted by a byte buffer: the bytes before the first
zero byte, as printed by the `%s` conversion. -/
def cstr (buf : List Nat) : List Nat := buf.takeWhile (fun b => b != 0)

/-- slush.c lines 278-279: `memset(buf, 0, sizeof(buf))` followed by
`fgets(buf, sizeof(buf), stdin)` reading `line` (which includes the
trailing newline when one was read).  The bytes after the line stay 0. -/
def fgetsBuf (line : List Nat) : List Nat :=
  line ++ List.replicate (BUFLEN - line.length) 0

/-- slush.c lines 281-291: the `switch (nlmap)` output newline remapping
applied to the console buffer before the serial write.  Case 1 stores a
carriage return over the trailing newline; case 2 additionally stores a
newline at the (recomputed) string length; any other value leaves the
buffer untouched (the switch has no default). -/
def nlRemap (nlmap : Int) (buf : List Nat) : List Nat :=
  if nlmap = 0 then buf
  else if nlmap = 1 then buf.set (strlen buf - 1) CR
  else if nlmap = 2 then
    let b1 := buf.set (strlen buf - 1) CR
    b1.set (strlen b1) NL
  else buf

/-- slush.c line 292: `write(fd, buf, strlen(buf))` — the bytes that go
out on the wire for a given console line under a given `nlmap`. -/
def wireBytes (nlmap : Int) (line : List Nat) : List Nat :=
  cstr (nlRemap nlmap (fgetsBuf line))

/-- The index of the second store of the mode-2 remapping
(slush.c line 289): `strlen(buf)` recomputed after the first store. -/
def mode2StoreIdx2 (line : List Nat) : Nat :=
  strlen ((fgetsBuf line).set (strlen (fgetsBuf line) - 1) CR)

/-- One lowercase hexadecimal digit: 0-9 then a-f. -/
def hexDigit (n : Nat) : Nat := if n < 10 then 48 + n else 87 + n

/-- The two bytes printed by `printf("%02hhx", c)`: the argument is
converted to `unsigned char` (`% 256`) and printed as exactly two
lowercase hexadecimal digits. -/
def hexByte (b : Nat) : List Nat := [hexDigit (b % 256 / 16), hexDigit (b % 256 % 16)]

/-- slush.c lines 91-93: the first loop of `debug_show_reply`, printing
each byte with `%02hhx` and no separator. -/
def hexLoop : List Nat → List Nat
  | [] => []
  | c :: cs => hexDigit (c % 256 / 16) :: hexDigit (c % 256 % 16) :: hexLoop cs

/-- slush.c lines 95-98 and 132-135: the ASCII loop, printing a byte if
`isprint` accepts it and `'.'` (byte 46) otherwise. -/
def asciiLoop : List Nat → List Nat
  | [] => []
  | c :: cs => (if isprint c then c else 46) :: asciiLoop cs

/-- slush.c lines 86-100: `debug_show_reply(buf, len)` — the bytes
written to standard output: the hex dump, two spaces, the ASCII
rendering, and a final newline. -/
def debug_show_reply (buf : List Nat) : List Nat :=
  hexLoop buf ++ [32, 32] ++ asciiLoop buf ++ [NL]

/-- Modelled from the spec: section 4.2's debug rendering, "every byte
as two-digit lowercase hex, concatenated with no separator". -/
def hexOfBytes (chunk : List Nat) : List Nat := (chunk.map hexByte).flatten

/-- Modelled from the spec: section 4.2's "ASCII rendering where
non-printable bytes are replaced with `.`". -/
def asciiOfBytes (chunk : List Nat) : List Nat :=
  chunk.map (fun c => if isprint c then c else 46)

/-- slush.c line 116: the static `lastts`/`total` pair of
`trace_show_reply` (spec: TraceClock).  Both are C `uint64_t`;
both are zero-initialized. -/
structure TraceClock where
  lastts : Nat
  total : Nat
deriving DecidableEq

/-- slush.c lines 121-130: one invocation of `trace_show_reply`'s
timestamp bookkeeping at monotonic-clock value `now` (milliseconds).
Returns the updated clock and the `(total, diff)` pair printed by
`printf("%" PRId64 " %" PRId64 " ", total, diff)`.  `uint64_t`
arithmetic is taken modulo `2 ^ 64`. -/
def traceStep (tc : TraceClock) (now : Nat) : TraceClock × Nat × Nat :=
  if tc.lastts ≠ 0 then
    let diff := (now + U64 - tc.lastts) % U64
    let total := (tc.total + diff) % U64
    (⟨now, total⟩, total, diff)
  else
    (⟨now, tc.total⟩, tc.total, 0)

/-- A sequence of trace render events at the given timestamps: the list
of `(total, diff)` pairs printed, threading the static clock state. -/
def traceRun : TraceClock → List Nat → List (Nat × Nat)
  | _, [] => []
  | tc, t :: ts =>
    let s := traceStep tc t
    (s.2.1, s.2.2) :: traceRun s.1 ts

/-- Modelled from the spec: the claimed trace accounting — after a first
event, every event at timestamp `t` following one at `prev` with
accumulated total `acc` renders `diff = t - prev` (elapsed milliseconds
since the previous event) and `total = acc + diff` (sum of all diffs so
far). -/
def specTrace : Nat → Nat → List Nat → List (Nat × Nat)
  | _, _, [] => []
  | prev, acc, t :: ts => (acc + (t - prev), t - prev) :: specTrace t (acc + (t - prev)) ts

/-- slush.c line 67 area: the termios `ICANON` local-mode bit
(Linux value 0o2). -/
def ICANON : Nat := 2

/-- slush.c lines 52 and 74-77: `memset(&nterm, 0, ...)` zeroes
`c_lflag`; it is set to `ICANON` exactly when neither debug nor trace
mode is active. -/
def c_lflag (debug trace : Bool) : Nat :=
  if !debug && !trace then ICANON else 0

/-- Linux termios baud constants (asm-generic/termbits.h). -/
def B1200 : Nat := 9
def B1800 : Nat := 10
def B2400 : Nat := 11
def B4800 : Nat := 12
def B9600 : Nat := 13
def B19200 : Nat := 14
def B38400 : Nat := 15
def B57600 : Nat := 4097
def B115200 : Nat := 4098

/-- One parsed `getopt` option from slush.c line 190's option string
`"ab:cdfho:p:t"`; `unknown` is getopt's `'?'` result. -/
inductive Opt where
  | a
  | b (n : Int)
  | c
  | d
  | f
  | h
  | o (n : Int)
  | p (s : String)
  | t
  | unknown
deriving DecidableEq

/-- The configuration locals of `main` (slush.c lines 182-184) together
with the file-scope mode flags (line 40).  `device` is the local
`char *device`, which has NO initializer: `none` models the
uninitialized pointer, `some s` the value installed by `-p`. -/
structure ParseState where
  annotate : Bool
  debug : Bool
  trace : Bool
  bps : Int
  icrnl : Bool
  nlmap : Int
  hwfc : Bool
  device : Option String
deriving DecidableEq

/-- The state on entry to the getopt loop: flags clear, `bps = BPS`,
`nlmap = 0`, and `device` uninitialized (slush.c lines 40 and 182-184). -/
def initState : ParseState :=
  ⟨false, false, false, BPS, false, 0, false, none⟩

/-- Result of the getopt loop (slush.c lines 190-224): `-h` prints
usage and returns 0; an unrecognized option prints usage and returns
-1; otherwise the loop finishes with the accumulated state. -/
inductive ParseResult where
  | exitHelp
  | exitUsage (code : Int)
  | parsed (st : ParseState)
deriving DecidableEq

/-- slush.c lines 190-224: the `while (EOF != (c = getopt(...)))` loop
over the parsed options. -/
def parseLoop : ParseState → List Opt → ParseResult
  | st, [] => .parsed st
  | st, .a :: os => parseLoop { st with annotate := true } os
  | st, .b n :: os => parseLoop { st with bps := n } os
  | st, .c :: os => parseLoop { st with icrnl := true } os
  | st, .d :: os => parseLoop { st with debug := true } os
  | st, .f :: os => parseLoop { st with hwfc := true } os
  | st, .o n :: os => parseLoop { st with nlmap := n } os
  | st, .p s :: os => parseLoop { st with device := some s } os
  | st, .t :: os => parseLoop { st with trace := true } os
  | _, .h :: _ => .exitHelp
  | _, .unknown :: _ => .exitUsage (-1)

/-- slush.c line 175: the usage text documents `DEVICE` as the default
serial port device (`"-p [file]   serial port device to open,
default: '%s'"`, formatted with `DEVICE`). -/
def usageDeviceDefault : String := DEVICE

/-- The supported baud-rate arguments (slush.c lines 225-252). -/
def supportedBauds : List Int :=
  [1200, 1800, 2400, 4800, 9600, 19200, 38400, 57600, 115200]

/-- slush.c lines 225-256: the `switch (bps)` mapping a requested rate
to its platform constant; `none` is the `default:` branch. -/
def baudSwitch (bps : Int) : Option Nat :=
  if bps = 1200 then some B1200
  else if bps = 1800 then some B1800
  else if bps = 2400 then some B2400
  else if bps = 4800 then some B4800
  else if bps = 9600 then some B9600
  else if bps = 19200 then some B19200
  else if bps = 38400 then some B38400
  else if bps = 57600 then some B57600
  else if bps = 115200 then some B115200
  else none

/-- What `main` does after the getopt loop: reject the configuration
with a usage error (slush.c lines 253-255, before any device is
touched), or reach the `open_serial` call of line 258 with the chosen
arguments. -/
inductive SetupResult where
  | usageError (code : Int)
  | openDevice (dev : Option String) (baud : Nat) (icrnl : Bool) (hwfc : Bool)
deriving DecidableEq

/-- slush.c lines 225-258: the baud `switch` followed by the
`open_serial(device, baud, icrnl, hwfc)` call. -/
def mainSetup (st : ParseState) : SetupResult :=
  match baudSwitch st.bps with
  | none => .usageError (-1)
  | some b => .openDevice st.device b st.icrnl st.hwfc

/-- slush.c line 141: `char reply[BUFLEN] = {0}` after a read of
`chunk` bytes: the buffer holds the chunk followed by zeros. -/
def replyBuf (chunk : List Nat) : List Nat :=
  chunk ++ List.replicate (BUFLEN - chunk.length) 0

/-- The file-scope display-mode flags (slush.c line 40). -/
structure Modes where
  annotate : Bool
  debug : Bool
  trace : Bool
deriving DecidableEq

/-- All flags clear: plain display mode. -/
def plainModes : Modes := ⟨false, false, false⟩

/-- Annotate display mode (`-a`). -/
def annotateModes : Modes := ⟨true, false, false⟩

/-- What one `read_reply` call writes to standard output. -/
inductive RenderOut where
  | perr
  | debugOut (bytes : List Nat)
  | traceOut (total diff : Nat) (ascii : List Nat)
  | annotateOut (cnt : Nat) (str : List Nat)
  | plainOut (str : List Nat)
deriving DecidableEq

/-- slush.c lines 139-162: `read_reply(fd)`.  The read result is the
input: `Except.error ()` models `read` returning a negative count (the
function prints `perror("read")` and returns -1), `Except.ok chunk`
models a successful read of `chunk` (possibly empty — a zero-byte read
is NOT treated as an error).  Returns the C return value, the rendered
output, and the updated trace clock. -/
def read_reply (m : Modes) (tc : TraceClock) (now : Nat)
    (res : Except Unit (List Nat)) : Int × RenderOut × TraceClock :=
  match res with
  | .error _ => (-1, .perr, tc)
  | .ok chunk =>
    if m.debug then (0, .debugOut (debug_show_reply chunk), tc)
    else if m.trace then
      let s := traceStep tc now
      (0, .traceOut s.2.1 s.2.2 (asciiLoop chunk), s.1)
    else if m.annotate then (0, .annotateOut chunk.length (cstr (replyBuf chunk)), tc)
    else (0, .plainOut (cstr (replyBuf chunk)), tc)

/-- One wakeup of the multiplex loop (slush.c lines 267-305): the poll
result and the readiness/IO outcomes of the two descriptors.
`stdinLine = none` models `fgets` returning NULL (EOF). -/
structure SerialEvent where
  pollRes : Int
  stdinReady : Bool
  stdinLine : Option (List Nat)
  serialErr : Bool
  serialHup : Bool
  serialReady : Bool
  serialRead : Except Unit (List Nat)

/-- Whether one loop iteration falls out of the loop (with `main`'s
return value) or reaches the bottom and iterates again. -/
inductive LoopCtl where
  | stop (code : Int)
  | next
deriving DecidableEq

/-- Observable effects of one loop iteration. -/
structure StepOut where
  serialWrite : Option (List Nat)
  render : Option RenderOut
  clockOut : TraceClock
  control : LoopCtl
deriving DecidableEq

/-- slush.c lines 267-305: one iteration of the `while (1)` multiplex
loop.  Note line 303: the return value of `read_reply` is discarded and
the loop proceeds to the next iteration regardless. -/
def loopStep (m : Modes) (tc : TraceClock) (now : Nat) (nlmap : Int)
    (ev : SerialEvent) : StepOut :=
  if ev.pollRes < 0 then ⟨none, none, tc, .stop (-1)⟩
  else if ev.pollRes = 0 then ⟨none, none, tc, .stop (-1)⟩
  else if ev.stdinReady && ev.stdinLine.isNone then ⟨none, none, tc, .stop 0⟩
  else
    let w : Option (List Nat) :=
      if ev.stdinReady then
        ev.stdinLine.map (fun l => cstr (nlRemap nlmap (fgetsBuf l)))
      else none
    if ev.serialErr then ⟨w, none, tc, .stop (-1)⟩
    else if ev.serialHup then ⟨w, none, tc, .stop (-1)⟩
    else if ev.serialReady then
      let r := read_reply m tc now ev.serialRead
      ⟨w, some r.2.1, r.2.2, .next⟩
    else ⟨w, none, tc, .next⟩

/-- Running the multiplex loop over a list of timestamped wakeups:
`Sum.inl code` means the loop exited with `main` returning `code`;
`Sum.inr tc` means every event was processed and the loop is still
running with trace clock `tc`. -/
def runLoop (m : Modes) (nlmap : Int) : TraceClock → List (Nat × SerialEvent) → Sum Int TraceClock
  | tc, [] => Sum.inr tc
  | tc, (now, ev) :: rest =>
    let so := loopStep m tc now nlmap ev
    match so.control with
    | .stop code => Sum.inl code
    | .next => runLoop m nlmap so.clockOut rest

/-! Helper lemmas about the C-string model. -/

theorem cstr_append_zero (l rest : List Nat) (h : ∀ b ∈ l, b ≠ 0) :
    cstr (l ++ 0 :: rest) = l := by
  induction l with
  | nil => simp [cstr, List.takeWhile]
  | cons a t ih =>
    have ha : (a != 0) = true := by simpa using h a (by simp)
    have ht : ∀ b ∈ t, b ≠ 0 := fun b hb => h b (by simp [hb])
    have ih' := ih ht
    simp [cstr] at ih'
    simp [cstr, List.takeWhile, ha, ih']

theorem strlen_eq_length_cstr (buf : List Nat) : strlen buf = (cstr buf).length := rfl

theorem strlen_append_zero (l rest : List Nat) (h : ∀ b ∈ l, b ≠ 0) :
    strlen (l ++ 0 :: rest) = l.length := by
  rw [strlen_eq_length_cstr, cstr_append_zero l rest h]

theorem cstr_append_of_zero_mem (l r : List Nat) (h : 0 ∈ l) :
    cstr (l ++ r) = cstr l := by
  induction l with
  | nil => exact absurd h (by simp)
  | cons a t ih =>
    by_cases ha : a = 0
    · subst ha; simp [cstr, List.takeWhile]
    · have ht : 0 ∈ t := by
        rcases List.mem_cons.mp h with h0 | h0
        · exact absurd h0.symm ha
        · exact h0
      have hba : (a != 0) = true := by simpa using ha
      have ih' := ih ht
      simp [cstr] at ih'
      simp [cstr, List.takeWhile, hba, ih']

theorem mem_of_mem_set (l : List Nat) (i v b : Nat) (h : b ∈ l.set i v) :
    b ∈ l ∨ b = v := by
  induction l generalizing i with
  | nil => simp at h
  | cons a t ih =>
    cases i with
    | zero =>
      rcases List.mem_cons.mp h with h0 | h0
      · exact Or.inr h0
      · exact Or.inl (List.mem_cons_of_mem a h0)
    | succ j =>
      rcases List.mem_cons.mp h with h0 | h0
      · exact Or.inl (h0 ▸ List.mem_cons_self a t)
      · rcases ih j h0 with h1 | h1
        · exact Or.inl (List.mem_cons_of_mem a h1)
        · exact Or.inr h1

/-- C6: canonical (line-buffered) input mode is enabled if and only if
neither debug mode nor trace mode is active; otherwise `c_lflag` stays
at the zeroed (raw, non-canonical) baseline. -/
theorem c6_canonical_iff_not_debug_trace :
    ∀ debug trace : Bool,
      (c_lflag debug trace &&& ICANON = ICANON) ↔ (debug = false ∧ trace = false) := by
  decide

/-- C8: debug rendering prints each byte as two-digit lowercase hex with
no separator, then two spaces, then the ASCII rendering with
non-printable bytes replaced by `.` (and a final newline); in particular
the bytes `[0x41, 0x0a]` render as `"410a"`, two spaces, `"A."`. -/
theorem c8_debug_render :
    (∀ chunk : List Nat,
        debug_show_reply chunk = hexOfBytes chunk ++ [32, 32] ++ asciiOfBytes chunk ++ [NL]) ∧
    debug_show_reply [65, 10] = [52, 49, 48, 97, 32, 32, 65, 46, 10] := by
  constructor
  · intro chunk
    have hhex : ∀ c : List Nat, hexLoop c = hexOfBytes c := by
      intro c
      induction c with
      | nil => rfl
      | cons a t ih => simp [hexLoop, hexOfBytes, hexByte] at ih ⊢; exact ih
    have hascii : ∀ c : List Nat, asciiLoop c = asciiOfBytes c := by
      intro c
      induction c with
      | nil => rfl
      | cons a t ih => simp [asciiLoop, asciiOfBytes] at ih ⊢; exact ih
    rw [debug_show_reply, hhex, hascii]
  · decide

/-- C10: an `-o` value outside {0,1,2} is accepted by the option loop
without any configuration error, and the remapping `switch` (which has
no default case) leaves every console line unchanged, exactly as mode 0
does. -/
theorem c10_nlmap_invalid_noop (n : Int) (h0 : n ≠ 0) (h1 : n ≠ 1) (h2 : n ≠ 2) :
    parseLoop initState [Opt.o n] = ParseResult.parsed { initState with nlmap := n } ∧
    (∀ buf, nlRemap n buf = buf ∧ nlRemap 0 buf = buf) ∧
    (∀ line, wireBytes n line = wireBytes 0 line) := by
  refine ⟨rfl, fun buf => ⟨?_, ?_⟩, fun line => ?_⟩
  · simp [nlRemap, h0, h1, h2]
  · simp [nlRemap]
  · simp [wireBytes, nlRemap, h0, h1, h2]

theorem c10_nlmap_invalid_noop_w :
    parseLoop initState [Opt.o 7] = ParseResult.parsed { initState with nlmap := 7 } ∧
    (∀ buf, nlRemap 7 buf = buf ∧ nlRemap 0 buf = buf) ∧
    (∀ line, wireBytes 7 line = wireBytes 0 line) :=
  c10_nlmap_invalid_noop 7 (by decide) (by decide) (by decide)

/-- C1: contrary to the claim, a failing (or zero-byte) read on the
serial descriptor does NOT terminate the process.  `read_reply` prints
a diagnostic and returns -1 on a read error, but the loop discards that
value (slush.c line 303) and keeps running: after a poll-ready serial
event whose read fails, and another whose read returns 0 bytes, the
loop is still running. -/
theorem c1_read_failure_loop_continues :
    read_reply plainModes ⟨0, 0⟩ 0 (Except.error ()) = (-1, RenderOut.perr, ⟨0, 0⟩) ∧
    runLoop plainModes 0 ⟨0, 0⟩
      [(0, ⟨1, false, none, false, false, true, Except.error ()⟩),
       (5, ⟨1, false, none, false, false, true, Except.ok []⟩)] = Sum.inr ⟨0, 0⟩ := by
  exact ⟨rfl, rfl⟩

/-- The getopt loop never touches `device` unless a `-p` option occurs. -/
theorem parseLoop_device_invariant :
    ∀ (opts : List Opt) (st : ParseState), (∀ s, Opt.p s ∉ opts) →
      ∀ st', parseLoop st opts = ParseResult.parsed st' → st'.device = st.device := by
  intro opts
  induction opts with
  | nil =>
    intro st hnp st' hp
    simp [parseLoop] at hp
    simp [← hp]
  | cons o os ih =>
    intro st hnp st' hp
    have hnp' : ∀ s, Opt.p s ∉ os :=
      fun s hs => hnp s (List.mem_cons_of_mem _ hs)
    cases o with
    | a =>
      simp only [parseLoop] at hp
      exact ih { st with annotate := true } hnp' st' hp
    | b n =>
      simp only [parseLoop] at hp
      exact ih { st with bps := n } hnp' st' hp
    | c =>
      simp only [parseLoop] at hp
      exact ih { st with icrnl := true } hnp' st' hp
    | d =>
      simp only [parseLoop] at hp
      exact ih { st with debug := true } hnp' st' hp
    | f =>
      simp only [parseLoop] at hp
      exact ih { st with hwfc := true } hnp' st' hp
    | o n =>
      simp only [parseLoop] at hp
      exact ih { st with nlmap := n } hnp' st' hp
    | t =>
      simp only [parseLoop] at hp
      exact ih { st with trace := true } hnp' st' hp
    | p s => exact absurd (List.mem_cons_self _ _) (hnp s)
    | h => simp [parseLoop] at hp
    | unknown => simp [parseLoop] at hp

/-- C2: contrary to the claim, a command line without `-p` does not make
the program open the documented default device: the `device` local is
never initialized to `DEVICE` (it stays uninitialized, modelled `none`),
even though the usage text documents `DEVICE` as the default. -/
theorem c2_no_default_device (opts : List Opt) (hnp : ∀ s, Opt.p s ∉ opts)
    (st' : ParseState) (hp : parseLoop initState opts = ParseResult.parsed st') :
    st'.device = none ∧ (none : Option String) ≠ some DEVICE ∧
      usageDeviceDefault = "/dev/ttyS0" :=
  ⟨(parseLoop_device_invariant opts initState hnp st' hp).trans rfl, by simp, rfl⟩

theorem c2_no_default_device_w :
    ({ initState with bps := 9600 } : ParseState).device = none ∧
      (none : Option String) ≠ some DEVICE ∧ usageDeviceDefault = "/dev/ttyS0" :=
  c2_no_default_device [Opt.b 9600] (by intro s hs; simp at hs) _ rfl

theorem mainSetup_some (ps : ParseState) (b : Nat) (hb : baudSwitch ps.bps = some b) :
    mainSetup ps = SetupResult.openDevice ps.device b ps.icrnl ps.hwfc := by
  simp [mainSetup, hb]

theorem mainSetup_none (ps : ParseState) (hb : baudSwitch ps.bps = none) :
    mainSetup ps = SetupResult.usageError (-1) := by
  simp [mainSetup, hb]

/-- C7: a supported baud argument is mapped to its platform constant and
`main` proceeds to `open_serial`; any other integer value makes `main`
print usage and return -1 before any device is opened. -/
theorem c7_baud_validation (ps : ParseState) :
    (ps.bps ∈ supportedBauds →
      ∃ b, baudSwitch ps.bps = some b ∧
        mainSetup ps = SetupResult.openDevice ps.device b ps.icrnl ps.hwfc) ∧
    (ps.bps ∉ supportedBauds →
      mainSetup ps = SetupResult.usageError (-1) ∧ (-1 : Int) ≠ 0) := by
  constructor
  · intro hmem
    have hb : ∃ b, baudSwitch ps.bps = some b := by
      simp [supportedBauds] at hmem
      rcases hmem with h | h | h | h | h | h | h | h | h <;> rw [h] <;> exact ⟨_, rfl⟩
    obtain ⟨b, hb⟩ := hb
    exact ⟨b, hb, mainSetup_some ps b hb⟩
  · intro hmem
    have hb : baudSwitch ps.bps = none := by
      simp [supportedBauds] at hmem
      obtain ⟨h1, h2, h3, h4, h5, h6, h7, h8, h9⟩ := hmem
      simp [baudSwitch, h1, h2, h3, h4, h5, h6, h7, h8, h9]
    exact ⟨mainSetup_none ps hb, by decide⟩

theorem c7_baud_validation_w :
    ∃ b, baudSwitch initState.bps = some b ∧
      mainSetup initState =
        SetupResult.openDevice initState.device b initState.icrnl initState.hwfc :=
  (c7_baud_validation initState).1 (by decide)

/-- C9: on a received chunk containing an embedded null byte, plain-mode
rendering shows only the bytes before the first null, while annotate
mode reports the byte count actually read (the full chunk length). -/
theorem c9_null_truncation (chunk : List Nat) (_hlen : chunk.length ≤ BUFLEN)
    (hnull : 0 ∈ chunk) :
    (read_reply plainModes ⟨0, 0⟩ 0 (Except.ok chunk)).2.1 =
      RenderOut.plainOut (chunk.takeWhile (fun b => b != 0)) ∧
    (read_reply annotateModes ⟨0, 0⟩ 0 (Except.ok chunk)).2.1 =
      RenderOut.annotateOut chunk.length (chunk.takeWhile (fun b => b != 0)) := by
  have hc : cstr (replyBuf chunk) = chunk.takeWhile (fun b => b != 0) := by
    rw [replyBuf, cstr_append_of_zero_mem _ _ hnull]
    rfl
  constructor
  · simp [read_reply, plainModes, hc]
  · simp [read_reply, annotateModes, hc]

theorem c9_null_truncation_w :
    (read_reply plainModes ⟨0, 0⟩ 0 (Except.ok [65, 0, 66])).2.1 =
      RenderOut.plainOut ([65, 0, 66].takeWhile (fun b => b != 0)) ∧
    (read_reply annotateModes ⟨0, 0⟩ 0 (Except.ok [65, 0, 66])).2.1 =
      RenderOut.annotateOut ([65, 0, 66] : List Nat).length
        ([65, 0, 66].takeWhile (fun b => b != 0)) :=
  c9_null_truncation [65, 0, 66] (by decide) (by decide)

/-- C4: for a console line `s ++ "\n"` of nonzero bytes whose remapped
form still fits in the buffer, mode 0 sends the line unchanged, mode 1
replaces the trailing newline by a carriage return, and mode 2 replaces
it by a carriage return followed by an appended newline. -/
theorem c4_output_nl_remap (s : List Nat) (hnz : ∀ b ∈ s, b ≠ 0)
    (hfit : s.length + 3 ≤ BUFLEN) :
    wireBytes 0 (s ++ [NL]) = s ++ [NL] ∧
    wireBytes 1 (s ++ [NL]) = s ++ [CR] ∧
    wireBytes 2 (s ++ [NL]) = s ++ [CR, NL] := by
  obtain ⟨k, hk⟩ : ∃ k, BUFLEN - (s ++ [NL]).length = k + 2 := by
    refine ⟨BUFLEN - s.length - 3, ?_⟩
    simp [BUFLEN] at hfit ⊢
    omega
  have hbuf : fgetsBuf (s ++ [NL]) = s ++ NL :: 0 :: 0 :: List.replicate k 0 := by
    rw [fgetsBuf, hk]
    simp [List.replicate]
  have hnzNL : ∀ b ∈ s ++ [NL], b ≠ 0 := by
    intro b hb
    rcases List.mem_append.mp hb with hb | hb
    · exact hnz b hb
    · simp at hb; subst hb; decide
  have hnzCR : ∀ b ∈ s ++ [CR], b ≠ 0 := by
    intro b hb
    rcases List.mem_append.mp hb with hb | hb
    · exact hnz b hb
    · simp at hb; subst hb; decide
  have hnzCRNL : ∀ b ∈ (s ++ [CR]) ++ [NL], b ≠ 0 := by
    intro b hb
    rcases List.mem_append.mp hb with hb | hb
    · exact hnzCR b hb
    · simp at hb; subst hb; decide
  have hstr : strlen (fgetsBuf (s ++ [NL])) = s.length + 1 := by
    rw [hbuf, List.append_cons s NL (0 :: 0 :: List.replicate k 0)]
    have := strlen_append_zero (s ++ [NL]) (0 :: List.replicate k 0) hnzNL
    simpa using this
  have hm1 : (fgetsBuf (s ++ [NL])).set (strlen (fgetsBuf (s ++ [NL])) - 1) CR =
      s ++ CR :: 0 :: 0 :: List.replicate k 0 := by
    rw [hstr, hbuf]
    simp
  have hm1str : strlen (s ++ CR :: 0 :: 0 :: List.replicate k 0) = s.length + 1 := by
    rw [List.append_cons s CR (0 :: 0 :: List.replicate k 0)]
    have := strlen_append_zero (s ++ [CR]) (0 :: List.replicate k 0) hnzCR
    simpa using this
  have hm2 : (s ++ CR :: 0 :: 0 :: List.replicate k 0).set (s.length + 1) NL =
      (s ++ [CR]) ++ NL :: 0 :: List.replicate k 0 := by
    rw [List.append_cons s CR (0 :: 0 :: List.replicate k 0)]
    have h1 : s.length + 1 = (s ++ [CR]).length := by simp
    rw [h1]
    simp
  refine ⟨?_, ?_, ?_⟩
  · simp only [wireBytes, nlRemap, if_pos rfl]
    rw [hbuf, List.append_cons s NL (0 :: 0 :: List.replicate k 0)]
    exact cstr_append_zero (s ++ [NL]) (0 :: List.replicate k 0) hnzNL
  · have h10 : (1 : Int) ≠ 0 := by decide
    simp only [wireBytes, nlRemap, if_neg h10, if_pos rfl]
    rw [hm1, List.append_cons s CR (0 :: 0 :: List.replicate k 0)]
    exact cstr_append_zero (s ++ [CR]) (0 :: List.replicate k 0) hnzCR
  · have h20 : (2 : Int) ≠ 0 := by decide
    have h21 : (2 : Int) ≠ 1 := by decide
    simp only [wireBytes, nlRemap, if_neg h20, if_neg h21, if_pos rfl, ite_true]
    rw [hm1, hm1str, hm2, List.append_cons (s ++ [CR]) NL (0 :: List.replicate k 0)]
    have := cstr_append_zero ((s ++ [CR]) ++ [NL]) (List.replicate k 0) hnzCRNL
    rw [this]
    simp

theorem c4_output_nl_remap_w :
    wireBytes 0 ([104, 101, 108, 108, 111] ++ [NL]) = [104, 101, 108, 108, 111] ++ [NL] ∧
    wireBytes 1 ([104, 101, 108, 108, 111] ++ [NL]) = [104, 101, 108, 108, 111] ++ [CR] ∧
    wireBytes 2 ([104, 101, 108, 108, 111] ++ [NL]) = [104, 101, 108, 108, 111] ++ [CR, NL] :=
  c4_output_nl_remap [104, 101, 108, 108, 111] (by decide) (by decide)

theorem set_append_left (l r : List Nat) (i : Nat) (v : Nat) (h : i < l.length) :
    (l ++ r).set i v = l.set i v ++ r := by
  induction l generalizing i with
  | nil => simp at h
  | cons a t ih =>
    cases i with
    | zero => simp [List.set]
    | succ j =>
      have hj : j < t.length := by simpa using h
      simp [List.set, ih j hj]

/-- The mode-2 remapping on a line that exactly fills the buffer with
all-nonzero bytes: the second store lands at index `BUFLEN - 1` (the
last cell, in bounds), and the remapped buffer no longer contains any
zero byte. -/
theorem mode2_full_line (line : List Nat) (hlen : line.length = BUFLEN - 1)
    (hnz : ∀ b ∈ line, b ≠ 0) :
    mode2StoreIdx2 line = BUFLEN - 1 ∧ ∀ b ∈ nlRemap 2 (fgetsBuf line), b ≠ 0 := by
  have hbuf : fgetsBuf line = line ++ [0] := by
    rw [fgetsBuf, hlen]
    norm_num [BUFLEN]
  have hstr : strlen (fgetsBuf line) = BUFLEN - 1 := by
    rw [hbuf]
    have h0 := strlen_append_zero line [] hnz
    simpa [hlen] using h0
  have hidx1 : BUFLEN - 1 - 1 < line.length := by
    rw [hlen]; decide
  have hset1 : (fgetsBuf line).set (strlen (fgetsBuf line) - 1) CR =
      line.set (BUFLEN - 1 - 1) CR ++ [0] := by
    rw [hstr, hbuf, set_append_left line [0] (BUFLEN - 1 - 1) CR hidx1]
  have hnz1 : ∀ b ∈ line.set (BUFLEN - 1 - 1) CR, b ≠ 0 := by
    intro b hb
    rcases mem_of_mem_set line (BUFLEN - 1 - 1) CR b hb with h | h
    · exact hnz b h
    · subst h; decide
  have hlen1 : (line.set (BUFLEN - 1 - 1) CR).length = BUFLEN - 1 := by
    simp [hlen]
  have hstr1 : strlen (line.set (BUFLEN - 1 - 1) CR ++ [0]) = BUFLEN - 1 := by
    have h0 := strlen_append_zero (line.set (BUFLEN - 1 - 1) CR) [] hnz1
    simpa [hlen1] using h0
  have hset2 : (line.set (BUFLEN - 1 - 1) CR ++ [0]).set (BUFLEN - 1) NL =
      line.set (BUFLEN - 1 - 1) CR ++ [NL] := by
    have h0 : BUFLEN - 1 = (line.set (BUFLEN - 1 - 1) CR).length := hlen1.symm
    nth_rewrite 2 [h0]
    simp
  constructor
  · simp only [mode2StoreIdx2]
    rw [hset1, hstr1]
  · have h20 : (2 : Int) ≠ 0 := by decide
    have h21 : (2 : Int) ≠ 1 := by decide
    simp only [nlRemap, if_neg h20, if_neg h21, if_pos rfl, ite_true]
    rw [hset1, hstr1, hset2]
    intro b hb
    rcases List.mem_append.mp hb with h | h
    · exact hnz1 b h
    · simp at h; subst h; decide

/-- C3 counterexample: no console line that exactly fills the buffer
with nonzero bytes and no trailing newline makes the mode-2 remapping
store out of the buffer's bounds — the second store index is always
`BUFLEN - 1`, strictly inside the `BUFLEN`-byte buffer. -/
theorem c3_cex :
    ¬ ∃ line : List Nat, line.length = BUFLEN - 1 ∧ (∀ b ∈ line, b ≠ 0) ∧
      line.getLast? ≠ some NL ∧ BUFLEN ≤ mode2StoreIdx2 line := by
  rintro ⟨line, hlen, hnz, _, hge⟩
  have h := (mode2_full_line line hlen hnz).1
  rw [h] at hge
  exact absurd hge (by decide)

/-- C3 amended: for a console line that exactly fills the buffer with no
trailing newline, the mode-2 second store lands at index `BUFLEN - 1` —
the last cell, still within the buffer — but it overwrites the string's
null terminator, leaving the buffer with no zero byte, so the
subsequent `strlen` sizing the serial write reads out of bounds. -/
theorem c3_mode2_terminator_overwrite (line : List Nat)
    (hlen : line.length = BUFLEN - 1) (hnz : ∀ b ∈ line, b ≠ 0)
    (_hnl : line.getLast? ≠ some NL) :
    mode2StoreIdx2 line = BUFLEN - 1 ∧ mode2StoreIdx2 line < BUFLEN ∧
    ∀ b ∈ nlRemap 2 (fgetsBuf line), b ≠ 0 := by
  obtain ⟨h1, h2⟩ := mode2_full_line line hlen hnz
  exact ⟨h1, by rw [h1]; decide, h2⟩

theorem c3_mode2_terminator_overwrite_w :
    mode2StoreIdx2 (List.replicate 1023 65) = BUFLEN - 1 ∧
    mode2StoreIdx2 (List.replicate 1023 65) < BUFLEN ∧
    ∀ b ∈ nlRemap 2 (fgetsBuf (List.replicate 1023 65)), b ≠ 0 :=
  c3_mode2_terminator_overwrite (List.replicate 1023 65)
    (by rw [List.length_replicate]; decide)
    (by intro b hb; rw [List.eq_of_mem_replicate hb]; decide)
    (by rw [show (1023 : Nat) = 1022 + 1 from rfl, List.replicate_succ',
          List.getLast?_concat]
        decide)

theorem u64_mod_sub (a b : Nat) (hle : a ≤ b) (hlt : b < U64) :
    (b + U64 - a) % U64 = b - a := by
  have h1 : b + U64 - a = (b - a) + U64 := by omega
  rw [h1, Nat.add_mod_right]
  exact Nat.mod_eq_of_lt (by omega)

/-- Once a nonzero timestamp has been latched into `lastts`, the trace
bookkeeping renders, at each event, `diff` = elapsed time since the
previous event and `total` = the running sum of diffs. -/
theorem traceRun_chain (rest : List Nat) :
    ∀ prev acc, 0 < prev → prev < U64 → acc ≤ prev →
      List.Chain (· ≤ ·) prev rest → (∀ t ∈ rest, t < U64) →
      traceRun ⟨prev, acc⟩ rest = specTrace prev acc rest := by
  induction rest with
  | nil => intro prev acc _ _ _ _ _; rfl
  | cons t ts ih =>
    intro prev acc hpos hlt hacc hchain hbound
    have hple : prev ≤ t := (List.chain_cons.mp hchain).1
    have hchain' : List.Chain (· ≤ ·) t ts := (List.chain_cons.mp hchain).2
    have htlt : t < U64 := hbound t (by simp)
    have hbound' : ∀ u ∈ ts, u < U64 := fun u hu => hbound u (by simp [hu])
    have hdiff : (t + U64 - prev) % U64 = t - prev := u64_mod_sub prev t hple htlt
    have hstep : traceStep ⟨prev, acc⟩ t =
        (⟨t, acc + (t - prev)⟩, acc + (t - prev), t - prev) := by
      have hne : (⟨prev, acc⟩ : TraceClock).lastts ≠ 0 := by
        simpa using Nat.pos_iff_ne_zero.mp hpos
      simp only [traceStep, if_pos hne]
      rw [hdiff]
      have hmod : (acc + (t - prev)) % U64 = acc + (t - prev) :=
        Nat.mod_eq_of_lt (by omega)
      rw [hmod]
    simp only [traceRun, specTrace, hstep]
    exact congrArg _ (ih t (acc + (t - prev)) (by omega) htlt (by omega) hchain' hbound')

/-- C5 counterexample: the trace events at monotonic timestamps 0 ms and
150 ms render `(total, diff)` pairs `(0,0), (0,0)` — the zero first
timestamp is indistinguishable from the `lastts == 0` "no prior event"
sentinel — whereas the claim requires the second event to render
`diff = 150`, `total = 150`. -/
theorem c5_cex :
    traceRun ⟨0, 0⟩ [0, 150] = [(0, 0), (0, 0)] ∧
    (0, 0) :: specTrace 0 0 [150] = [(0, 0), (150, 150)] ∧
    traceRun ⟨0, 0⟩ [0, 150] ≠ (0, 0) :: specTrace 0 0 [150] := by
  refine ⟨rfl, rfl, ?_⟩
  decide

/-- C5 amended: for monotonic (non-decreasing) timestamps whose first
event occurs at a nonzero clock value (so that the `lastts == 0`
sentinel is never confused with a real timestamp), the first event
renders `diff = 0` and `total = 0`, and every subsequent event renders
`diff` = elapsed milliseconds since the previous event and `total` = the
sum of all diffs so far. -/
theorem c5_trace_accounting (t0 : Nat) (rest : List Nat) (hpos : 0 < t0)
    (hchain : List.Chain (· ≤ ·) t0 rest) (hbound : ∀ t ∈ t0 :: rest, t < U64) :
    traceRun ⟨0, 0⟩ (t0 :: rest) = (0, 0) :: specTrace t0 0 rest := by
  have hstep0 : traceStep ⟨0, 0⟩ t0 = (⟨t0, 0⟩, 0, 0) := by
    simp [traceStep]
  simp only [traceRun, hstep0]
  exact congrArg _ (traceRun_chain rest t0 0 hpos (hbound t0 (by simp)) (by omega)
    hchain (fun u hu => hbound u (by simp [hu])))

theorem c5_trace_accounting_w :
    traceRun ⟨0, 0⟩ (100 :: [250, 300]) = (0, 0) :: specTrace 100 0 [250, 300] :=
  c5_trace_accounting 100 [250, 300] (by decide)
    (List.Chain.cons (by decide) (List.Chain.cons (by decide) List.Chain.nil))
    (by decide)

end Slush
